import Mathlib

/-!
Shallow embedding of the benchmark-analysis core of the COL868-HLL repository.

The embedded code:
* `plot_experiment_2.py` — the `union_stats` / `exact_stats` groupby
  aggregations, the inner `merge` on `num_days`, and the derived-metric
  columns (`error_absolute`, `error_pct`, `speedup_factor`,
  `sketch_size_kb`, `efficiency_score`);
* `plot_experiment_1.py` / `plot_results.py` — `compute_scaling_summary`.

Numeric model: CSV-loaded measurement values are modelled as exact
rationals; the float64 columns produced by pandas are modelled by the
type `F` below, which carries a rational together with the IEEE special
values NaN and ±infinity, with arithmetic mirroring numpy semantics at
those points (division by zero yields ±infinity or NaN, never an
exception).  Standard deviations (`pandas .std()`, sample `ddof=1`
convention) involve a real square root and are modelled as `Option ℝ`
with `none` playing the role of NaN.
-/

namespace HLLBench

/-- A float-column value: an exact rational, or one of the IEEE special
values NaN, +∞, -∞ produced by degenerate arithmetic. -/
inductive F where
  | nan : F
  | pinf : F
  | ninf : F
  | num : ℚ → F
deriving DecidableEq, Repr

/-- Subtraction on float values (numpy semantics at the special values). -/
def fsub : F → F → F
  | F.nan, _ => F.nan
  | _, F.nan => F.nan
  | F.pinf, F.pinf => F.nan
  | F.pinf, _ => F.pinf
  | F.ninf, F.ninf => F.nan
  | F.ninf, _ => F.ninf
  | F.num _, F.pinf => F.ninf
  | F.num _, F.ninf => F.pinf
  | F.num a, F.num b => F.num (a - b)

/-- Absolute value on float values (Python `abs` applied elementwise). -/
def fabs : F → F
  | F.nan => F.nan
  | F.pinf => F.pinf
  | F.ninf => F.pinf
  | F.num a => F.num |a|

/-- Multiplication on float values (numpy semantics: `∞ * 0 = NaN`). -/
def fmul : F → F → F
  | F.nan, _ => F.nan
  | _, F.nan => F.nan
  | F.pinf, F.pinf => F.pinf
  | F.pinf, F.ninf => F.ninf
  | F.pinf, F.num b => if 0 < b then F.pinf else if b < 0 then F.ninf else F.nan
  | F.ninf, F.pinf => F.ninf
  | F.ninf, F.ninf => F.pinf
  | F.ninf, F.num b => if 0 < b then F.ninf else if b < 0 then F.pinf else F.nan
  | F.num a, F.pinf => if 0 < a then F.pinf else if a < 0 then F.ninf else F.nan
  | F.num a, F.ninf => if 0 < a then F.ninf else if a < 0 then F.pinf else F.nan
  | F.num a, F.num b => F.num (a * b)

/-- Division on float values.  Mirrors numpy float64 true division: a
nonzero numerator over zero gives a signed infinity, `0 / 0` gives NaN;
no exception is ever raised.  (Signed zero is not modelled.) -/
def fdiv : F → F → F
  | F.nan, _ => F.nan
  | _, F.nan => F.nan
  | F.pinf, F.pinf => F.nan
  | F.pinf, F.ninf => F.nan
  | F.ninf, F.pinf => F.nan
  | F.ninf, F.ninf => F.nan
  | F.pinf, F.num b => if b < 0 then F.ninf else F.pinf
  | F.ninf, F.num b => if b < 0 then F.pinf else F.ninf
  | F.num _, F.pinf => F.num 0
  | F.num _, F.ninf => F.num 0
  | F.num a, F.num b =>
      if b = 0 then (if 0 < a then F.pinf else if a < 0 then F.ninf else F.nan)
      else F.num (a / b)

/-- pandas `Series.mean()`: the arithmetic mean of the column, NaN on an
empty column. -/
def fmean (xs : List ℚ) : F :=
  if xs.isEmpty then F.nan else F.num (xs.sum / xs.length)

/-- pandas `Series.max()`: the maximum of the column, NaN on an empty
column. -/
def fmax : List ℚ → F
  | [] => F.nan
  | x :: xs => F.num (xs.foldl max x)

/-- pandas `Series.std()`: sample standard deviation with the `ddof=1`
(n−1) denominator; NaN (modelled `none`) when fewer than two values are
present. -/
noncomputable def sampleStd (xs : List ℚ) : Option ℝ :=
  if xs.length ≤ 1 then none
  else
    some (Real.sqrt
      ((xs.map (fun x => ((x - xs.sum / xs.length : ℚ) : ℝ) ^ 2)).sum / (xs.length - 1)))

/-- Lexicographic (non-strict) order on `(precision, num_days)` group
keys, the order in which pandas `groupby(['precision', 'num_days'])`
emits its groups. -/
def keyLe (a b : ℤ × ℤ) : Prop :=
  a.1 < b.1 ∨ (a.1 = b.1 ∧ a.2 ≤ b.2)

/-- Strict lexicographic order on group keys. -/
def keyLt (a b : ℤ × ℤ) : Prop :=
  a.1 < b.1 ∨ (a.1 = b.1 ∧ a.2 < b.2)

instance : DecidableRel keyLe := fun a b => by
  unfold keyLe; infer_instance

instance : DecidableRel keyLt := fun a b => by
  unfold keyLt; infer_instance

instance : IsTotal (ℤ × ℤ) keyLe where
  total a b := by
    rcases lt_trichotomy a.1 b.1 with h | h | h
    · exact Or.inl (Or.inl h)
    · rcases le_total a.2 b.2 with h2 | h2
      · exact Or.inl (Or.inr ⟨h, h2⟩)
      · exact Or.inr (Or.inr ⟨h.symm, h2⟩)
    · exact Or.inr (Or.inl h)

instance : IsTrans (ℤ × ℤ) keyLe where
  trans a b c hab hbc := by
    rcases hab with h1 | ⟨e1, l1⟩
    · rcases hbc with h2 | ⟨e2, _⟩
      · exact Or.inl (h1.trans h2)
      · exact Or.inl (e2 ▸ h1)
    · rcases hbc with h2 | ⟨e2, l2⟩
      · exact Or.inl (e1 ▸ h2)
      · exact Or.inr ⟨e1.trans e2, l1.trans l2⟩

/-! ### Experiment 2 (`plot_experiment_2.py`): records and pipeline -/

/-- One row of `union.csv` (an approximate-method benchmark trial). -/
structure UnionRecord where
  precision : ℤ
  num_days : ℤ
  estimated_count : ℚ
  query_time_ms : ℚ
  total_sketch_size_bytes : ℚ
deriving DecidableEq, Repr

/-- One row of `exact.csv` (an exact-method benchmark trial). -/
structure ExactRecord where
  num_days : ℤ
  exact_count : ℚ
  query_time_ms : ℚ
deriving DecidableEq, Repr

/-- One row of the `union_stats` aggregate
(`union_df.groupby(['precision','num_days']).agg(...)`). -/
structure UnionStatsRow where
  precision : ℤ
  num_days : ℤ
  avg_estimate : F
  union_time_ms : F
  union_stddev_ms : Option ℝ
  total_sketch_bytes : F

/-- One row of the `exact_stats` aggregate
(`exact_df.groupby('num_days').agg(...)`). -/
structure ExactStatsRow where
  num_days : ℤ
  exact_count : F
  exact_time_ms : F
  exact_stddev_ms : Option ℝ

/-- The grouping key of a `union.csv` record, in `groupby` column order. -/
def ukey (r : UnionRecord) : ℤ × ℤ :=
  (r.precision, r.num_days)

/-- The distinct `(precision, num_days)` keys of the union data, in the
ascending order in which pandas `groupby` (with its default `sort=True`)
emits the groups. -/
def unionKeys (union_df : List UnionRecord) : List (ℤ × ℤ) :=
  List.insertionSort keyLe (union_df.map ukey).dedup

/-- The summary row computed for one `(precision, num_days)` group. -/
noncomputable def unionStatsRowFor (union_df : List UnionRecord) (k : ℤ × ℤ) :
    UnionStatsRow :=
  let g := union_df.filter (fun r => ukey r = k)
  { precision := k.1
    num_days := k.2
    avg_estimate := fmean (g.map (·.estimated_count))
    union_time_ms := fmean (g.map (·.query_time_ms))
    union_stddev_ms := sampleStd (g.map (·.query_time_ms))
    total_sketch_bytes := fmax (g.map (·.total_sketch_size_bytes)) }

/-- `union_stats = union_df.groupby(['precision','num_days'], as_index=False).agg(
avg_estimate=('estimated_count','mean'), union_time_ms=('query_time_ms','mean'),
union_stddev_ms=('query_time_ms','std'),
total_sketch_bytes=('total_sketch_size_bytes','max'))`. -/
noncomputable def union_stats (union_df : List UnionRecord) : List UnionStatsRow :=
  (unionKeys union_df).map (unionStatsRowFor union_df)

/-- The distinct `num_days` keys of the exact data, ascending. -/
def exactDays (exact_df : List ExactRecord) : List ℤ :=
  List.insertionSort (· ≤ ·) (exact_df.map (·.num_days)).dedup

/-- The summary row computed for one `num_days` group of the exact data. -/
noncomputable def exactStatsRowFor (exact_df : List ExactRecord) (d : ℤ) :
    ExactStatsRow :=
  let g := exact_df.filter (fun r => r.num_days = d)
  { num_days := d
    exact_count := fmean (g.map (·.exact_count))
    exact_time_ms := fmean (g.map (·.query_time_ms))
    exact_stddev_ms := sampleStd (g.map (·.query_time_ms)) }

/-- `exact_stats = exact_df.groupby('num_days', as_index=False).agg(
exact_count=('exact_count','mean'), exact_time_ms=('query_time_ms','mean'),
exact_stddev_ms=('query_time_ms','std'))`. -/
noncomputable def exact_stats (exact_df : List ExactRecord) : List ExactStatsRow :=
  (exactDays exact_df).map (exactStatsRowFor exact_df)

/-- One row of `comparison_df`: the merged columns of both summaries plus
the derived-metric columns. -/
structure CompRow where
  precision : ℤ
  num_days : ℤ
  avg_estimate : F
  union_time_ms : F
  union_stddev_ms : Option ℝ
  total_sketch_bytes : F
  exact_count : F
  exact_time_ms : F
  exact_stddev_ms : Option ℝ
  error_absolute : F
  error_pct : F
  speedup_factor : F
  sketch_size_kb : F
  efficiency_score : F

/-- The joined row for one matched `(union_stats, exact_stats)` pair,
with the derived columns computed in source order:
`error_absolute`, then `error_pct`, then `speedup_factor`, then
`sketch_size_kb`, then `efficiency_score`. -/
def mkCompRow (u : UnionStatsRow) (e : ExactStatsRow) : CompRow :=
  let error_absolute := fabs (fsub u.avg_estimate e.exact_count)
  let error_pct := fmul (fdiv error_absolute e.exact_count) (F.num 100)
  let speedup_factor := fdiv e.exact_time_ms u.union_time_ms
  let sketch_size_kb := fdiv u.total_sketch_bytes (F.num 1024)
  let efficiency_score := fdiv speedup_factor error_pct
  { precision := u.precision
    num_days := u.num_days
    avg_estimate := u.avg_estimate
    union_time_ms := u.union_time_ms
    union_stddev_ms := u.union_stddev_ms
    total_sketch_bytes := u.total_sketch_bytes
    exact_count := e.exact_count
    exact_time_ms := e.exact_time_ms
    exact_stddev_ms := e.exact_stddev_ms
    error_absolute := error_absolute
    error_pct := error_pct
    speedup_factor := speedup_factor
    sketch_size_kb := sketch_size_kb
    efficiency_score := efficiency_score }

/-- `union_stats.merge(exact_stats, on='num_days')` followed by the
derived-metric block.  pandas' default inner merge keeps the left
(`union_stats`) row order and pairs each left row with every
`exact_stats` row having the same `num_days`, in right-table order. -/
def mergeComp (us : List UnionStatsRow) (es : List ExactStatsRow) : List CompRow :=
  us.flatMap (fun u => (es.filter (fun e => e.num_days = u.num_days)).map (mkCompRow u))

/-- `comparison_df`, the full aggregate-join-derive pipeline of
`plot_experiment_2.py` (lines 44–67). -/
noncomputable def comparison_df (union_df : List UnionRecord)
    (exact_df : List ExactRecord) : List CompRow :=
  mergeComp (union_stats union_df) (exact_stats exact_df)

/-! ### Experiment 1 (`plot_experiment_1.py` / `plot_results.py`):
`compute_scaling_summary` -/

/-- One row of the experiment-1 `exact.csv` raw data. -/
structure ExactRec1 where
  dataset_size : ℤ
  distinct_count : ℚ
  duration_ms : ℚ
deriving DecidableEq, Repr

/-- One row of the experiment-1 `hll.csv` raw data. -/
structure HllRec where
  dataset_size : ℤ
  precision : ℤ
  duration_ms : ℚ
  relative_error : ℚ
  storage_bytes : ℚ
deriving DecidableEq, Repr

/-- One row of the scaling summary built by `compute_scaling_summary`:
the dict assembled per dataset size, with one field triple per HLL
precision in {10, 12, 14}. -/
structure ScalingRow where
  dataset_size : ℤ
  distinct_count : F
  exact_avg_ms : F
  exact_std_ms : Option ℝ
  hll_p10_avg_ms : F
  hll_p10_error : F
  hll_p10_storage : F
  hll_p12_avg_ms : F
  hll_p12_error : F
  hll_p12_storage : F
  hll_p14_avg_ms : F
  hll_p14_error : F
  hll_p14_storage : F

/-- `sorted(exact_df['dataset_size'].unique())`: the distinct dataset
sizes of the exact data in ascending order. -/
def scalingSizes (exact_df : List ExactRec1) : List ℤ :=
  List.insertionSort (· ≤ ·) (exact_df.map (·.dataset_size)).dedup

/-- The `row` dict built by one iteration of the `for size in ...` loop
of `compute_scaling_summary`. -/
noncomputable def scalingRowFor (exact_df : List ExactRec1) (hll_df : List HllRec)
    (size : ℤ) : ScalingRow :=
  let exact_subset := exact_df.filter (fun r => r.dataset_size = size)
  let hll_subset := hll_df.filter (fun r => r.dataset_size = size)
  let h10 := hll_subset.filter (fun r => r.precision = 10)
  let h12 := hll_subset.filter (fun r => r.precision = 12)
  let h14 := hll_subset.filter (fun r => r.precision = 14)
  { dataset_size := size
    distinct_count := fmean (exact_subset.map (·.distinct_count))
    exact_avg_ms := fmean (exact_subset.map (·.duration_ms))
    exact_std_ms := sampleStd (exact_subset.map (·.duration_ms))
    hll_p10_avg_ms := fmean (h10.map (·.duration_ms))
    hll_p10_error := fmean (h10.map (·.relative_error))
    hll_p10_storage := fmean (h10.map (·.storage_bytes))
    hll_p12_avg_ms := fmean (h12.map (·.duration_ms))
    hll_p12_error := fmean (h12.map (·.relative_error))
    hll_p12_storage := fmean (h12.map (·.storage_bytes))
    hll_p14_avg_ms := fmean (h14.map (·.duration_ms))
    hll_p14_error := fmean (h14.map (·.relative_error))
    hll_p14_storage := fmean (h14.map (·.storage_bytes)) }

/-- `compute_scaling_summary(exact_df, hll_df)`: one summary row per
distinct dataset size of the exact data, in ascending size order. -/
noncomputable def compute_scaling_summary (exact_df : List ExactRec1)
    (hll_df : List HllRec) : List ScalingRow :=
  (scalingSizes exact_df).map (scalingRowFor exact_df hll_df)

/-! ### Structural lemmas about the grouping keys -/

theorem unionKeys_nodup (df : List UnionRecord) : (unionKeys df).Nodup :=
  ((List.perm_insertionSort keyLe _).nodup_iff).mpr (List.nodup_dedup _)

theorem mem_unionKeys {df : List UnionRecord} {k : ℤ × ℤ} :
    k ∈ unionKeys df ↔ k ∈ df.map ukey := by
  unfold unionKeys
  rw [List.mem_insertionSort, List.mem_dedup]

theorem unionKeys_pairwise_lt (df : List UnionRecord) :
    (unionKeys df).Pairwise keyLt := by
  have hs : (unionKeys df).Sorted keyLe := List.sorted_insertionSort keyLe _
  have hn : (unionKeys df).Nodup := unionKeys_nodup df
  refine List.Pairwise.imp₂ (fun a b h1 h2 => ?_) hs hn
  rcases h1 with h | ⟨e, le⟩
  · exact Or.inl h
  · exact Or.inr ⟨e, lt_of_le_of_ne le (fun h2' => h2 (Prod.ext e h2'))⟩

theorem exactDays_nodup (df : List ExactRecord) : (exactDays df).Nodup :=
  ((List.perm_insertionSort _ _).nodup_iff).mpr (List.nodup_dedup _)

theorem mem_exactDays {df : List ExactRecord} {d : ℤ} :
    d ∈ exactDays df ↔ d ∈ df.map (·.num_days) := by
  unfold exactDays
  rw [List.mem_insertionSort, List.mem_dedup]

theorem exactDays_pairwise_lt (df : List ExactRecord) :
    (exactDays df).Pairwise (· < ·) := by
  have hs : (exactDays df).Sorted (· ≤ ·) := List.sorted_insertionSort _ _
  have hn : (exactDays df).Nodup := exactDays_nodup df
  exact List.Pairwise.imp₂ (fun a b h1 h2 => lt_of_le_of_ne h1 h2) hs hn

theorem scalingSizes_nodup (df : List ExactRec1) : (scalingSizes df).Nodup :=
  ((List.perm_insertionSort _ _).nodup_iff).mpr (List.nodup_dedup _)

theorem mem_scalingSizes {df : List ExactRec1} {s : ℤ} :
    s ∈ scalingSizes df ↔ s ∈ df.map (·.dataset_size) := by
  unfold scalingSizes
  rw [List.mem_insertionSort, List.mem_dedup]

theorem scalingSizes_pairwise_lt (df : List ExactRec1) :
    (scalingSizes df).Pairwise (· < ·) := by
  have hs : (scalingSizes df).Sorted (· ≤ ·) := List.sorted_insertionSort _ _
  have hn : (scalingSizes df).Nodup := scalingSizes_nodup df
  exact List.Pairwise.imp₂ (fun a b h1 h2 => lt_of_le_of_ne h1 h2) hs hn

theorem union_stats_keys (df : List UnionRecord) :
    (union_stats df).map (fun r => (r.precision, r.num_days)) = unionKeys df := by
  unfold union_stats
  rw [List.map_map]
  exact (List.map_congr_left fun k _ => rfl).trans (List.map_id _)

theorem exact_stats_keys (df : List ExactRecord) :
    (exact_stats df).map (·.num_days) = exactDays df := by
  unfold exact_stats
  rw [List.map_map]
  exact (List.map_congr_left fun d _ => rfl).trans (List.map_id _)

theorem compute_scaling_summary_keys (exact_df : List ExactRec1)
    (hll_df : List HllRec) :
    (compute_scaling_summary exact_df hll_df).map (·.dataset_size)
      = scalingSizes exact_df := by
  unfold compute_scaling_summary
  rw [List.map_map]
  exact (List.map_congr_left fun s _ => rfl).trans (List.map_id _)

/-! ### Lemmas about the inner merge -/

theorem filter_days_length_of_nodup (es : List ExactStatsRow) (d : ℤ)
    (h : (es.map (·.num_days)).Nodup) :
    (es.filter (fun e => e.num_days = d)).length
      = if d ∈ es.map (·.num_days) then 1 else 0 := by
  induction es with
  | nil => simp
  | cons e es ih =>
    rw [List.map_cons, List.nodup_cons] at h
    by_cases hd : e.num_days = d
    · subst hd
      have hnil : es.filter (fun e' => e'.num_days = e.num_days) = [] := by
        refine List.filter_eq_nil_iff.mpr (fun a ha hpa => h.1 ?_)
        have : a.num_days = e.num_days := by simpa using hpa
        exact this ▸ List.mem_map_of_mem (·.num_days) ha
      simp [List.filter_cons, hnil]
    · rw [List.map_cons]
      have heq : (if d ∈ e.num_days :: es.map (·.num_days) then 1 else 0)
          = (if d ∈ es.map (·.num_days) then 1 else 0) := by
        by_cases hdm : d ∈ es.map (·.num_days)
        · rw [if_pos hdm, if_pos (List.mem_cons_of_mem _ hdm)]
        · have hnc : d ∉ e.num_days :: es.map (·.num_days) := by
            intro hc
            rcases List.mem_cons.mp hc with hc | hc
            · exact hd hc.symm
            · exact hdm hc
          rw [if_neg hdm, if_neg hnc]
      rw [heq, ← ih h.2]
      simp [List.filter_cons, hd]

theorem mergeComp_cons (u : UnionStatsRow) (us : List UnionStatsRow)
    (es : List ExactStatsRow) :
    mergeComp (u :: us) es
      = (es.filter (fun e => e.num_days = u.num_days)).map (mkCompRow u)
        ++ mergeComp us es := by
  simp [mergeComp]

theorem mergeComp_keys (us : List UnionStatsRow) (es : List ExactStatsRow)
    (h : (es.map (·.num_days)).Nodup) :
    (mergeComp us es).map (fun r => (r.precision, r.num_days))
      = (us.map (fun u => (u.precision, u.num_days))).filter
          (fun k => k.2 ∈ es.map (·.num_days)) := by
  induction us with
  | nil => rfl
  | cons u us ih =>
    rw [mergeComp_cons, List.map_append, ih, List.map_map]
    have hconst : ((es.filter (fun e => e.num_days = u.num_days)).map
          ((fun r : CompRow => (r.precision, r.num_days)) ∘ mkCompRow u))
        = List.replicate (es.filter (fun e => e.num_days = u.num_days)).length
            (u.precision, u.num_days) := by
      refine List.eq_replicate_iff.mpr ⟨by simp, fun b hb => ?_⟩
      rcases List.mem_map.mp hb with ⟨e, _, rfl⟩
      rfl
    rw [hconst, filter_days_length_of_nodup es u.num_days h, List.map_cons,
      List.filter_cons]
    by_cases hmem : u.num_days ∈ es.map (·.num_days)
    · rw [if_pos hmem, if_pos (decide_eq_true hmem)]
      rfl
    · rw [if_neg hmem, if_neg (by simpa using hmem)]
      rfl

theorem length_mergeComp (us : List UnionStatsRow) (es : List ExactStatsRow) :
    (mergeComp us es).length
      = ((us.map (fun u => (es.filter (fun e => e.num_days = u.num_days)).length)).sum) := by
  induction us with
  | nil => rfl
  | cons u us ih =>
    rw [mergeComp_cons, List.length_append, ih]
    simp

/-! ### Lemmas about `sampleStd` and `fdiv` -/

theorem sampleStd_singleton (x : ℚ) : sampleStd [x] = none := by
  simp [sampleStd]

theorem sampleStd_of_two_le (xs : List ℚ) (h : 2 ≤ xs.length) :
    ∃ s : ℝ, sampleStd xs = some s ∧ 0 ≤ s ∧
      s ^ 2 * ((xs.length : ℝ) - 1)
        = (xs.map (fun x => ((x - xs.sum / xs.length : ℚ) : ℝ) ^ 2)).sum := by
  have hlen : ¬ xs.length ≤ 1 := by omega
  have hV : 0 ≤ (xs.map (fun x => ((x - xs.sum / xs.length : ℚ) : ℝ) ^ 2)).sum := by
    refine List.sum_nonneg (fun a ha => ?_)
    rcases List.mem_map.mp ha with ⟨x, _, rfl⟩
    positivity
  have hden : (0:ℝ) < (xs.length : ℝ) - 1 := by
    have h2 : (2:ℝ) ≤ (xs.length : ℝ) := by exact_mod_cast h
    linarith
  refine ⟨Real.sqrt
      ((xs.map (fun x => ((x - xs.sum / xs.length : ℚ) : ℝ) ^ 2)).sum
        / ((xs.length : ℝ) - 1)), ?_, Real.sqrt_nonneg _, ?_⟩
  · unfold sampleStd
    rw [if_neg hlen]
  · rw [Real.sq_sqrt (div_nonneg hV hden.le), div_mul_cancel₀ _ hden.ne']

theorem fdiv_num_zero (a : ℚ) :
    fdiv (F.num a) (F.num 0)
      = if 0 < a then F.pinf else if a < 0 then F.ninf else F.nan := by
  simp [fdiv]

theorem fdiv_num_zero_ne_num (a : ℚ) (q : ℚ) :
    fdiv (F.num a) (F.num 0) ≠ F.num q := by
  rw [fdiv_num_zero]
  split_ifs <;> simp

/-! ### Extraction lemmas: the stddev field of each summary row -/

theorem union_stats_stddev_eq (df : List UnionRecord) (r : UnionStatsRow)
    (h : r ∈ union_stats df) :
    r.union_stddev_ms
      = sampleStd ((df.filter (fun x => ukey x = (r.precision, r.num_days))).map
          (·.query_time_ms)) := by
  unfold union_stats at h
  rcases List.mem_map.mp h with ⟨k, _, rfl⟩
  rfl

theorem exact_stats_stddev_eq (df : List ExactRecord) (r : ExactStatsRow)
    (h : r ∈ exact_stats df) :
    r.exact_stddev_ms
      = sampleStd ((df.filter (fun x => x.num_days = r.num_days)).map
          (·.query_time_ms)) := by
  unfold exact_stats at h
  rcases List.mem_map.mp h with ⟨d, _, rfl⟩
  rfl

theorem scaling_std_eq (exact_df : List ExactRec1) (hll_df : List HllRec)
    (r : ScalingRow) (h : r ∈ compute_scaling_summary exact_df hll_df) :
    r.exact_std_ms
      = sampleStd ((exact_df.filter (fun x => x.dataset_size = r.dataset_size)).map
          (·.duration_ms)) := by
  unfold compute_scaling_summary at h
  rcases List.mem_map.mp h with ⟨s, _, rfl⟩
  rfl

/-! ### Row-level derived-metric lemmas -/

theorem mergeComp_row_formulas (us : List UnionStatsRow) (es : List ExactStatsRow)
    (r : CompRow) (h : r ∈ mergeComp us es) :
    r.error_absolute = fabs (fsub r.avg_estimate r.exact_count) ∧
    r.error_pct = fmul (fdiv r.error_absolute r.exact_count) (F.num 100) ∧
    r.speedup_factor = fdiv r.exact_time_ms r.union_time_ms ∧
    r.sketch_size_kb = fdiv r.total_sketch_bytes (F.num 1024) ∧
    r.efficiency_score = fdiv r.speedup_factor r.error_pct := by
  unfold mergeComp at h
  rcases List.mem_flatMap.mp h with ⟨u, _, hr⟩
  rcases List.mem_map.mp hr with ⟨e, _, rfl⟩
  exact ⟨rfl, rfl, rfl, rfl, rfl⟩

theorem mergeComp_append (us1 us2 : List UnionStatsRow) (es : List ExactStatsRow) :
    mergeComp (us1 ++ us2) es = mergeComp us1 es ++ mergeComp us2 es := by
  simp [mergeComp]

/-! ### Concrete sample data for closed evaluations -/

/-- A concrete approximate-method trial: precision 10, window 1 day,
estimate 99500, duration 49 ms, sketch 4096 bytes. -/
def sampleUnionRecord : UnionRecord := ⟨10, 1, 99500, 49, 4096⟩

/-- A concrete approximate-method trial at precision 12 with a healthy
49 ms duration. -/
def sampleUnionRecord12 : UnionRecord := ⟨12, 1, 99500, 49, 4096⟩

/-- A degenerate approximate-method trial measuring a duration of 0 ms. -/
def zeroDurUnionRecord : UnionRecord := ⟨10, 1, 99500, 0, 4096⟩

/-- A concrete exact-method trial: window 1 day, exact count 100000,
duration 245 ms. -/
def sampleExactRecord : ExactRecord := ⟨1, 100000, 245⟩

/-- A concrete approximate-summary row with key (10, 1). -/
def oneUnionStats : UnionStatsRow := ⟨10, 1, F.num 99500, F.num 49, none, F.num 4096⟩

/-- A concrete exact-summary row for `num_days = 1`. -/
def dupExact1 : ExactStatsRow := ⟨1, F.num 100000, F.num 245, none⟩

/-- A second exact-summary row with the same `num_days = 1` join key. -/
def dupExact2 : ExactStatsRow := ⟨1, F.num 90000, F.num 200, none⟩

/-- Approx-summary row with key (10, 100) for the join-inclusion example. -/
def uA : UnionStatsRow := ⟨10, 100, F.num 1, F.num 1, none, F.num 1⟩

/-- Approx-summary row with key (12, 100) for the join-inclusion example. -/
def uB : UnionStatsRow := ⟨12, 100, F.num 1, F.num 1, none, F.num 1⟩

/-- Approx-summary row with key (10, 200) for the join-inclusion example. -/
def uC : UnionStatsRow := ⟨10, 200, F.num 1, F.num 1, none, F.num 1⟩

/-- Exact-summary row with join key 100 for the join-inclusion example. -/
def eA : ExactStatsRow := ⟨100, F.num 1, F.num 1, none⟩

/-! ### Claims -/

/-- C1: every joined comparison row's derived fields are computed by the
stated formulas in the stated order (`error_absolute` from the two
means, `error_pct` from `error_absolute`, `speedup_factor` from the two
duration means, `efficiency_score` from `speedup_factor` and
`error_pct`); moreover, on the concrete pipeline input with exact mean
duration 245 and approx mean duration 49, and exact count mean 100000
against approx estimate mean 99500, the output row has
`error_absolute = 500`, `error_pct = 0.5` and `speedup_factor = 5`. -/
theorem C1_derived_metric_formulas (us : List UnionStatsRow)
    (es : List ExactStatsRow) (r : CompRow) (h : r ∈ mergeComp us es) :
    (r.error_absolute = fabs (fsub r.avg_estimate r.exact_count) ∧
     r.error_pct = fmul (fdiv r.error_absolute r.exact_count) (F.num 100) ∧
     r.speedup_factor = fdiv r.exact_time_ms r.union_time_ms ∧
     r.efficiency_score = fdiv r.speedup_factor r.error_pct) ∧
    (comparison_df [sampleUnionRecord] [sampleExactRecord]).map
        (fun x => (x.error_absolute, x.error_pct, x.speedup_factor))
      = [(F.num 500, F.num (1/2), F.num 5)] := by
  have hf := mergeComp_row_formulas us es r h
  refine ⟨⟨hf.1, hf.2.1, hf.2.2.1, hf.2.2.2.2⟩, ?_⟩
  simp [comparison_df, mergeComp, union_stats, exact_stats, unionKeys, exactDays,
    unionStatsRowFor, exactStatsRowFor, mkCompRow, ukey, fmean, fabs, fsub, fmul, fdiv,
    sampleUnionRecord, sampleExactRecord]
  norm_num

/-- C1 witness: the formula part of C1 instantiated at a concrete
one-row join. -/
theorem C1_derived_metric_formulas_witness :
    (mkCompRow oneUnionStats dupExact1).speedup_factor
      = fdiv (mkCompRow oneUnionStats dupExact1).exact_time_ms
          (mkCompRow oneUnionStats dupExact1).union_time_ms :=
  (C1_derived_metric_formulas [oneUnionStats] [dupExact1] _
    (show _ ∈ [mkCompRow oneUnionStats dupExact1] from List.mem_singleton.mpr rfl)).1.2.2.1

/-- C2 counterexample: on the spec's own example input (approx mean
duration 0 ms, exact mean duration 245 ms) the pipeline reports
`speedup_factor` as +infinity — a definite signed value that is neither
not-a-number nor an undefined marker — so the claim that the affected
field is reported as a NaN/undefined sentinel fails at this input. -/
theorem C2_sentinel_counterexample :
    (comparison_df [zeroDurUnionRecord] [sampleExactRecord]).map (·.speedup_factor)
      = [F.pinf] ∧ F.pinf ≠ F.nan := by
  constructor
  · simp [comparison_df, mergeComp, union_stats, exact_stats, unionKeys, exactDays,
      unionStatsRowFor, exactStatsRowFor, mkCompRow, ukey, fmean, fdiv,
      zeroDurUnionRecord, sampleExactRecord]
  · simp

/-- C2 (amended): a zero division denominator never raises and never
yields a finite number: the affected derived field becomes +infinity or
-infinity for a nonzero numerator and NaN for a zero numerator; each
output row is computed from its own joined pair only, so all other rows
are unaffected (the merge distributes over the approx rows); concretely,
with one degenerate group (approx duration 0) next to one healthy group,
the call returns both rows, the degenerate one with `speedup_factor`
+infinity and the healthy one with `speedup_factor` 5 and `error_pct`
0.5 unchanged. -/
theorem C2_zero_denominator_amended :
    (∀ a q : ℚ, fdiv (F.num a) (F.num 0) ≠ F.num q) ∧
    (∀ a : ℚ, fdiv (F.num a) (F.num 0)
        = if 0 < a then F.pinf else if a < 0 then F.ninf else F.nan) ∧
    (∀ us1 us2 es, mergeComp (us1 ++ us2) es = mergeComp us1 es ++ mergeComp us2 es) ∧
    (comparison_df [zeroDurUnionRecord, sampleUnionRecord12] [sampleExactRecord]).map
        (fun x => (x.speedup_factor, x.error_pct))
      = [(F.pinf, F.num (1/2)), (F.num 5, F.num (1/2))] := by
  refine ⟨fdiv_num_zero_ne_num, fdiv_num_zero, mergeComp_append, ?_⟩
  simp [comparison_df, mergeComp, union_stats, exact_stats, unionKeys, exactDays,
    unionStatsRowFor, exactStatsRowFor, mkCompRow, ukey, fmean, fabs, fsub, fmul, fdiv,
    zeroDurUnionRecord, sampleUnionRecord12, sampleExactRecord, List.dedup,
    List.insertionSort, List.orderedInsert, keyLe]
  norm_num

/-- C2 witness: the amended zero-denominator behavior at the concrete
numerator 245. -/
theorem C2_zero_denominator_amended_witness :
    fdiv (F.num 245) (F.num 0) ≠ F.num 5 :=
  C2_zero_denominator_amended.1 245 5

/-- C3 counterexample: an exact summary with two rows carrying the same
join key `num_days = 1` is not rejected: the merge call succeeds and
produces one output row per matching pair — two rows here — instead of
surfacing a fatal precondition violation. -/
theorem C3_ambiguous_join_counterexample :
    (mergeComp [oneUnionStats] [dupExact1, dupExact2]).length = 2 ∧
    mergeComp [oneUnionStats] [dupExact1, dupExact2] ≠ [] := by
  have h : (mergeComp [oneUnionStats] [dupExact1, dupExact2]).length = 2 := by
    simp [mergeComp, oneUnionStats, dupExact1, dupExact2]
  refine ⟨h, fun hc => ?_⟩
  rw [hc] at h
  simp at h

/-- C3 (amended): the merge never rejects an ambiguous join — the
number of output rows is the sum, over the approximate-summary rows, of
the number of exact-summary rows sharing that row's `num_days` (so k
matching exact rows yield k output rows rather than an error); in the
actual pipeline the exact summary produced by the `num_days` groupby
always has pairwise-distinct join keys, so the ambiguous case cannot
arise there. -/
theorem C3_ambiguous_join_amended :
    (∀ us es, (mergeComp us es).length
        = (us.map (fun u =>
            (es.filter (fun e => e.num_days = u.num_days)).length)).sum) ∧
    (∀ exact_df, ((exact_stats exact_df).map (·.num_days)).Nodup) :=
  ⟨length_mergeComp, fun exact_df => by
    rw [exact_stats_keys]
    exact exactDays_nodup _⟩

/-- C3 witness: the amended row-count law at a concrete ambiguous
input: one approx row joined against two exact rows with the same key
yields exactly two output rows. -/
theorem C3_ambiguous_join_amended_witness :
    (mergeComp [oneUnionStats] [dupExact1, dupExact2]).length
      = (([oneUnionStats].map (fun u =>
          ([dupExact1, dupExact2].filter (fun e => e.num_days = u.num_days)).length)).sum) :=
  C3_ambiguous_join_amended.1 [oneUnionStats] [dupExact1, dupExact2]

/-- C4: inner-join semantics — when the exact summary's join keys are
pairwise distinct, the key tuples of the comparison output are exactly
the approx-summary key tuples whose `num_days` occurs in the exact
summary, in approx-summary order: each matched approx row produces
exactly one comparison row, each unmatched approx row is silently
dropped, and no output key is absent from either source. -/
theorem C4_inner_join (us : List UnionStatsRow) (es : List ExactStatsRow)
    (h : (es.map (·.num_days)).Nodup) :
    (mergeComp us es).map (fun r => (r.precision, r.num_days))
      = (us.map (fun u => (u.precision, u.num_days))).filter
          (fun k => k.2 ∈ es.map (·.num_days)) :=
  mergeComp_keys us es h

/-- C4 witness: the spec's join-inclusion example — approx keys
(10,100), (12,100), (10,200) joined against the single exact key 100
produce exactly the rows for (10,100) and (12,100); the (10,200) row is
dropped. -/
theorem C4_inner_join_witness :
    (mergeComp [uA, uB, uC] [eA]).map (fun r => (r.precision, r.num_days))
      = [((10:ℤ), (100:ℤ)), ((12:ℤ), (100:ℤ))] := by
  rw [C4_inner_join [uA, uB, uC] [eA] (by simp [eA])]
  simp [uA, uB, uC, eA]

/-- C5: grouping completeness — every distinct grouping-key tuple of
the input appears exactly once among the summarizer's output rows and no
other key appears, for the union groupby, the exact groupby and the
scaling summary; a key with no member records never yields a row. -/
theorem C5_grouping_completeness :
    (∀ df : List UnionRecord,
        ((union_stats df).map (fun r => (r.precision, r.num_days))).Nodup ∧
        ∀ k, k ∈ (union_stats df).map (fun r => (r.precision, r.num_days))
          ↔ k ∈ df.map ukey) ∧
    (∀ df : List ExactRecord,
        ((exact_stats df).map (·.num_days)).Nodup ∧
        ∀ d, d ∈ (exact_stats df).map (·.num_days) ↔ d ∈ df.map (·.num_days)) ∧
    (∀ (e : List ExactRec1) (hl : List HllRec),
        ((compute_scaling_summary e hl).map (·.dataset_size)).Nodup ∧
        ∀ s, s ∈ (compute_scaling_summary e hl).map (·.dataset_size)
          ↔ s ∈ e.map (·.dataset_size)) := by
  refine ⟨fun df => ⟨?_, fun k => ?_⟩, fun df => ⟨?_, fun d => ?_⟩,
    fun e hl => ⟨?_, fun s => ?_⟩⟩
  · rw [union_stats_keys]
    exact unionKeys_nodup df
  · rw [union_stats_keys]
    exact mem_unionKeys
  · rw [exact_stats_keys]
    exact exactDays_nodup df
  · rw [exact_stats_keys]
    exact mem_exactDays
  · rw [compute_scaling_summary_keys]
    exact scalingSizes_nodup e
  · rw [compute_scaling_summary_keys]
    exact mem_scalingSizes

/-- C5 witness: grouping completeness evaluated on the concrete
one-record union input: its single key (10, 1) appears in the output. -/
theorem C5_grouping_completeness_witness :
    (10, 1) ∈ (union_stats [sampleUnionRecord]).map
        (fun r => (r.precision, r.num_days)) :=
  ((C5_grouping_completeness.1 [sampleUnionRecord]).2 (10, 1)).mpr
    (by simp [ukey, sampleUnionRecord])

/-- C6: output ordering — for every input collection, in any order, the
summary rows are strictly ascending in the grouping-key tuple:
lexicographically in (precision, num_days) for the union summary,
ascending in num_days for the exact summary, and ascending in
dataset_size for the scaling summary. -/
theorem C6_output_sorted :
    (∀ df : List UnionRecord,
        ((union_stats df).map (fun r => (r.precision, r.num_days))).Pairwise keyLt) ∧
    (∀ df : List ExactRecord,
        ((exact_stats df).map (·.num_days)).Pairwise (· < ·)) ∧
    (∀ (e : List ExactRec1) (hl : List HllRec),
        ((compute_scaling_summary e hl).map (·.dataset_size)).Pairwise (· < ·)) := by
  refine ⟨fun df => ?_, fun df => ?_, fun e hl => ?_⟩
  · rw [union_stats_keys]
    exact unionKeys_pairwise_lt df
  · rw [exact_stats_keys]
    exact exactDays_pairwise_lt df
  · rw [compute_scaling_summary_keys]
    exact scalingSizes_pairwise_lt e

/-- C6 witness: the sortedness law evaluated on the concrete
two-record union input. -/
theorem C6_output_sorted_witness :
    ((union_stats [sampleUnionRecord, sampleUnionRecord12]).map
        (fun r => (r.precision, r.num_days))).Pairwise keyLt :=
  C6_output_sorted.1 [sampleUnionRecord, sampleUnionRecord12]

/-- C7: stddev convention — every summary row's standard-deviation
field is `sampleStd` of its own group's member values (the same
function across the union, exact and scaling summaries); `sampleStd` of
a single-member group is the sentinel `none` (NaN); and on groups of at
least two members it is the nonnegative real whose square times (n−1)
is the sum of squared deviations from the mean, i.e. the sample (n−1)
denominator. -/
theorem C7_stddev_convention :
    (∀ (df : List UnionRecord) r, r ∈ union_stats df →
        r.union_stddev_ms
          = sampleStd ((df.filter (fun x => ukey x = (r.precision, r.num_days))).map
              (·.query_time_ms))) ∧
    (∀ (df : List ExactRecord) r, r ∈ exact_stats df →
        r.exact_stddev_ms
          = sampleStd ((df.filter (fun x => x.num_days = r.num_days)).map
              (·.query_time_ms))) ∧
    (∀ (e : List ExactRec1) (hl : List HllRec) r,
        r ∈ compute_scaling_summary e hl →
        r.exact_std_ms
          = sampleStd ((e.filter (fun x => x.dataset_size = r.dataset_size)).map
              (·.duration_ms))) ∧
    (∀ x : ℚ, sampleStd [x] = none) ∧
    (∀ xs : List ℚ, 2 ≤ xs.length →
        ∃ s : ℝ, sampleStd xs = some s ∧ 0 ≤ s ∧
          s ^ 2 * ((xs.length : ℝ) - 1)
            = (xs.map (fun x => ((x - xs.sum / xs.length : ℚ) : ℝ) ^ 2)).sum) :=
  ⟨union_stats_stddev_eq, exact_stats_stddev_eq, scaling_std_eq,
    sampleStd_singleton, sampleStd_of_two_le⟩

/-- C7 witness: the single-member convention at a concrete group: the
one-record union input produces its row with stddev `none`, via the
row-level part of C7 applied at that input. -/
theorem C7_stddev_convention_witness :
    (unionStatsRowFor [sampleUnionRecord] (10, 1)).union_stddev_ms
      = sampleStd (([sampleUnionRecord].filter (fun x =>
          ukey x = ((unionStatsRowFor [sampleUnionRecord] (10, 1)).precision,
            (unionStatsRowFor [sampleUnionRecord] (10, 1)).num_days))).map
          (·.query_time_ms)) :=
  C7_stddev_convention.1 [sampleUnionRecord] _
    (show _ ∈ [unionStatsRowFor [sampleUnionRecord] (10, 1)] from
      List.mem_singleton.mpr rfl)

/-- C8: determinism — the summarize-then-compare pipeline and the
scaling summary are pure functions of their inputs: two runs on the
same input collections produce identical output tables, row order and
field values included. -/
theorem C8_pipeline_deterministic (union_df : List UnionRecord)
    (exact_df : List ExactRecord) (e1 : List ExactRec1) (h1 : List HllRec)
    (o1 o2 : List CompRow) (s1 s2 : List ScalingRow)
    (ho1 : o1 = comparison_df union_df exact_df)
    (ho2 : o2 = comparison_df union_df exact_df)
    (hs1 : s1 = compute_scaling_summary e1 h1)
    (hs2 : s2 = compute_scaling_summary e1 h1) :
    o1 = o2 ∧ s1 = s2 :=
  ⟨ho1.trans ho2.symm, hs1.trans hs2.symm⟩

/-- C8 witness: two runs on the concrete one-record inputs agree. -/
theorem C8_pipeline_deterministic_witness :
    comparison_df [sampleUnionRecord] [sampleExactRecord]
        = comparison_df [sampleUnionRecord] [sampleExactRecord] ∧
      compute_scaling_summary [] [] = compute_scaling_summary [] [] :=
  C8_pipeline_deterministic [sampleUnionRecord] [sampleExactRecord] [] []
    _ _ _ _ rfl rfl rfl rfl

/-- C9: empty input is not an error — summarizing zero records yields
the empty summary, merging with either side empty yields the empty
comparison table, and the scaling summary of zero exact records is
empty. -/
theorem C9_empty_input :
    union_stats [] = [] ∧
    exact_stats [] = [] ∧
    (∀ es, mergeComp [] es = []) ∧
    (∀ us, mergeComp us [] = []) ∧
    comparison_df [] [] = [] ∧
    (∀ hll_df, compute_scaling_summary [] hll_df = []) := by
  refine ⟨rfl, rfl, fun es => rfl, fun us => ?_, rfl, fun hll_df => rfl⟩
  induction us with
  | nil => rfl
  | cons u us ih =>
    rw [mergeComp_cons]
    simpa using ih

/-- C10: for every dataset size present in the exact-method records, a
scaling-summary row is emitted even when the HLL records have no rows
for that size at some precision p ∈ {10, 12, 14}; in that case the
row's `hll_p{p}_avg_ms`, `hll_p{p}_error` and `hll_p{p}_storage` fields
are NaN rather than the row being dropped or an error raised. -/
theorem C10_empty_precision_group_nan (exact_df : List ExactRec1)
    (hll_df : List HllRec) (s : ℤ) (h : s ∈ exact_df.map (·.dataset_size)) :
    ∃ r, r ∈ compute_scaling_summary exact_df hll_df ∧ r.dataset_size = s ∧
      ((hll_df.filter (fun x => x.dataset_size = s)).filter
          (fun x => x.precision = 10) = [] →
        r.hll_p10_avg_ms = F.nan ∧ r.hll_p10_error = F.nan ∧
          r.hll_p10_storage = F.nan) ∧
      ((hll_df.filter (fun x => x.dataset_size = s)).filter
          (fun x => x.precision = 12) = [] →
        r.hll_p12_avg_ms = F.nan ∧ r.hll_p12_error = F.nan ∧
          r.hll_p12_storage = F.nan) ∧
      ((hll_df.filter (fun x => x.dataset_size = s)).filter
          (fun x => x.precision = 14) = [] →
        r.hll_p14_avg_ms = F.nan ∧ r.hll_p14_error = F.nan ∧
          r.hll_p14_storage = F.nan) := by
  refine ⟨scalingRowFor exact_df hll_df s,
    List.mem_map_of_mem _ (mem_scalingSizes.mpr h), rfl, ?_, ?_, ?_⟩
  all_goals intro hnil
  all_goals refine ⟨?_, ?_, ?_⟩
  all_goals
    show fmean (((hll_df.filter (fun x => x.dataset_size = s)).filter _).map _) = F.nan
  all_goals rw [hnil]
  all_goals rfl

/-- C10 witness: with one exact record at size 100 and no HLL records
at all, the emitted row for size 100 carries NaN in all nine HLL
fields. -/
theorem C10_empty_precision_group_nan_witness :
    ∃ r, r ∈ compute_scaling_summary [⟨100, 95, 245⟩] [] ∧ r.dataset_size = 100 ∧
      ((([] : List HllRec).filter (fun x => x.dataset_size = 100)).filter
          (fun x => x.precision = 10) = [] →
        r.hll_p10_avg_ms = F.nan ∧ r.hll_p10_error = F.nan ∧
          r.hll_p10_storage = F.nan) ∧
      ((([] : List HllRec).filter (fun x => x.dataset_size = 100)).filter
          (fun x => x.precision = 12) = [] →
        r.hll_p12_avg_ms = F.nan ∧ r.hll_p12_error = F.nan ∧
          r.hll_p12_storage = F.nan) ∧
      ((([] : List HllRec).filter (fun x => x.dataset_size = 100)).filter
          (fun x => x.precision = 14) = [] →
        r.hll_p14_avg_ms = F.nan ∧ r.hll_p14_error = F.nan ∧
          r.hll_p14_storage = F.nan) :=
  C10_empty_precision_group_nan [⟨100, 95, 245⟩] [] 100 (by simp)

end HLLBench
